import Mathlib

/-!
A verification development for the daisy static site generator
(src/daisy.py).  The Python source is shallowly embedded: pure string
manipulation is translated to Lean functions on `String` / `List Char`,
file contents are passed and returned explicitly, and Python exceptions
become an explicit error type.  CPython semantics that matter here:

* `s[:-3]` takes all but the last three characters (empty result when
  the string is shorter);
* `needle in hay` on strings is substring containment;
* `list.sort(key=..., reverse=True)` is a stable sort, descending in
  the key; comparing `None` with a `str` (or with `None`) under `<`
  raises `TypeError`, and for a list of length at least two every
  element takes part in at least one key comparison, so the sort
  raises exactly when the list has at least two elements and some key
  is `None`;
* `a or b` on strings yields `a` when `a` is non-empty, else `b`;
* `str.format` renders the value `None` as the text "None";
* `dict[k]` raises `KeyError` when `k` is absent; `list.pop()` returns
  the last element and raises `IndexError` on an empty list.
-/

deriving instance DecidableEq for Except

/-- Python exceptions (and exception-like exits) that the embedded code
can raise.  `keyError` is what `MissingMetadataError` denotes concretely
(uncaught `KeyError` on the metadata mapping), and `fileNotFound` is the
concrete form of `PostNotFoundError` (`FileNotFoundError` in the code). -/
inductive Err where
  | keyError
  | indexError
  | typeError
  | fileNotFound
deriving DecidableEq, Repr

/-- The `Post` class of daisy.py: `filename` is the slug (source file
name with the last three characters dropped), `content` the converted
HTML fragment, `title` and `date` the extracted metadata (`date` is
`none` when the source had no `date` key, modelling Python `None`),
`html` the rendered page (`none` before rendering). -/
structure Post where
  filename : String
  content : String
  title : String
  date : Option String
  html : Option String
deriving DecidableEq, Repr

/-- CPython string comparison `s < t`: lexicographic on code points,
with a proper prefix smaller than the longer string. -/
def pyLt : List Char → List Char → Bool
  | [], [] => false
  | [], _ :: _ => true
  | _ :: _, [] => false
  | a :: as, b :: bs => if a = b then pyLt as bs else decide (a < b)

/-- `s < t` on Python strings. -/
def pyStrLt (s t : String) : Bool :=
  pyLt s.data t.data

/-- The sort key used by `generate_index_file`: `post.date`.  The
`getD ""` default is never consulted on the paths where the sort runs
(the sort either sees only string dates or raises `TypeError` first). -/
def dKey (p : Post) : String :=
  p.date.getD ""

/-- Does `needle` occur at the start of `hay`? -/
def startsWithL : List Char → List Char → Bool
  | [], _ => true
  | _ :: _, [] => false
  | a :: as, b :: bs => a = b && startsWithL as bs

/-- Does `needle` occur somewhere in `hay`?  (Python `needle in hay`.) -/
def occursInL (needle : List Char) : List Char → Bool
  | [] => startsWithL needle []
  | c :: rest => startsWithL needle (c :: rest) || occursInL needle rest

/-- Python substring containment `needle in hay` on strings. -/
def pyIn (needle hay : String) : Bool :=
  occursInL needle.data hay.data

/-- Python `a or b` on strings: `a` when `a` is truthy (non-empty),
otherwise `b`. -/
def pyOrStr (a b : String) : String :=
  if a = "" then b else a

/-- Python `filename[:-3]`, the slug computation of `Post.__init__`
("drop the last three characters of the filename"). -/
def pySliceToMinus3 (s : String) : String :=
  ⟨s.data.take (s.data.length - 3)⟩

/-- Lookup in the converter metadata mapping `md_reader.Meta`
(key to ordered list of string values). -/
def metaValues (meta : List (String × List String)) (key : String) :
    Option (List String) :=
  (meta.find? (fun kv => kv.fst == key)).map Prod.snd

/-- `Post.__init__` of daisy.py.  The external markdown converter is a
black box, so its output — the HTML fragment and the metadata mapping —
is taken as the input `converted`.  `Meta["title"].pop()` raises
`KeyError` when `title` is absent and `IndexError` when its value list
is empty; the `date` lookup catches only `KeyError`, setting `date` to
`None`. -/
def Post.init (converted : String × List (String × List String))
    (filename : String) : Except Err Post :=
  match metaValues converted.2 "title" with
  | none => .error .keyError
  | some titleVals =>
    match titleVals.getLast? with
    | none => .error .indexError
    | some title =>
      match metaValues converted.2 "date" with
      | none => .ok ⟨pySliceToMinus3 filename, converted.1, title, none, none⟩
      | some dateVals =>
        match dateVals.getLast? with
        | none => .error .indexError
        | some d =>
          .ok ⟨pySliceToMinus3 filename, converted.1, title, some d, none⟩

/-- The `INDEX_HEADER` constant of daisy.py. -/
def INDEX_HEADER : String := "title: Index\n\n"

/-- `str.format` applied to a post date: Python renders `None` as the
text "None". -/
def pyStrOfDate : Option String → String
  | none => "None"
  | some s => s

/-- One index entry, `INDEX_POST_ENTRY.format(post.title,
post.filename + CONFIG["ext"]["html"], post.date)`. -/
def indexPostEntry (htmlExt : String) (p : Post) : String :=
  "[" ++ p.title ++ "](" ++ p.filename ++ htmlExt ++ ") (" ++
    pyStrOfDate p.date ++ ")\n\n"

/-- `insert_string` of daisy.py: `string[:index] + string_to_insert +
string[index:]`. -/
def insert_string (string string_to_insert : String) (index : Nat) : String :=
  ⟨string.data.take index ++ string_to_insert.data ++ string.data.drop index⟩

/-- `add_to_index_file` of daisy.py, as a function from the current
index document text to the rewritten text.  When `post.filename` occurs
in the document the call leaves it unchanged; otherwise the new entry is
inserted at offset `len(INDEX_HEADER)`. -/
def add_to_index_file (htmlExt : String) (post : Post) (data : String) :
    String :=
  if pyIn post.filename data then data
  else insert_string data (indexPostEntry htmlExt post) INDEX_HEADER.length

/-- Insert one post into a list already sorted by date descending,
placing it after every strictly greater key — together with
`sortByDateDesc` this is the stable descending sort that
`posts.sort(key=lambda post: post.date, reverse=True)` performs. -/
def insertD (p : Post) : List Post → List Post
  | [] => [p]
  | q :: qs => if pyStrLt (dKey p) (dKey q) then q :: insertD p qs
               else p :: q :: qs

/-- Stable sort of posts by date, descending (CPython list.sort with
`key=lambda post: post.date` and `reverse=True`; stable sorts with equal
keys and comparisons produce identical output, so insertion sort and
timsort agree). -/
def sortByDateDesc : List Post → List Post
  | [] => []
  | p :: ps => insertD p (sortByDateDesc ps)

/-- Does `posts.sort(key=lambda post: post.date, reverse=True)` raise
`TypeError`?  CPython raises on the first `<` between `None` and a date
string (or two `None`s); with at least two elements every element is
involved in at least one key comparison, so the sort raises exactly when
some key is `None` and the list has length at least two. -/
def sortWouldRaise (posts : List Post) : Bool :=
  decide (2 ≤ posts.length) && posts.any (fun p => p.date.isNone)

/-- `generate_index_file` of daisy.py.  Returns the post list as left in
the variable of the caller after the in-place `posts.sort(...)` together with
the full new contents of the index file (the file is opened with mode
"w": complete replacement). -/
def generate_index_file (htmlExt : String) (posts : List Post) :
    Except Err (List Post × String) :=
  if sortWouldRaise posts then .error .typeError
  else
    let sorted := sortByDateDesc posts
    .ok (sorted, INDEX_HEADER ++ String.join (sorted.map (indexPostEntry htmlExt)))

/-- Observable side effects of the orchestrator functions: rendering a
post to an output page under the blog or meta template, rewriting the
index document, and the "No blog posts found" message. -/
inductive Effect where
  | renderBlog (slug : String)
  | addToIndex (slug : String)
  | renderMeta (slug : String)
  | printNoPosts
deriving DecidableEq, Repr

/-- How a run of `render_single_post` ends when it does not raise:
`exited` is the silent `sys.exit()` of the ignore check, `completed`
carries the rendering and index effects in program order. -/
inductive BuildOutcome where
  | exited
  | completed (effects : List Effect)
deriving DecidableEq, Repr

/-- `render_single_post` of daisy.py.  The filesystem is abstracted to
the list `existing` of paths for which `os.path.exists` is true, and
the rendering and index steps are recorded as an effect trace.  The
ignore test is the literal expression of the code,
`(meta_filename or blog_filename) in CONFIG["ignored_files"]`, which
evaluates `meta_filename or blog_filename` first (Python `or` on
strings) and tests only that single string for membership. -/
def render_single_post (blogDir indexFile : String)
    (ignored existing : List String) (filename : String) :
    Except Err BuildOutcome :=
  let meta_filename := filename
  let blog_filename := blogDir ++ "/" ++ filename
  if ignored.contains (pyOrStr meta_filename blog_filename) then
    .ok .exited
  else if existing.contains blog_filename then
    .ok (.completed [.renderBlog (pySliceToMinus3 blog_filename),
                     .addToIndex (pySliceToMinus3 blog_filename),
                     .renderMeta (pySliceToMinus3 indexFile)])
  else if existing.contains meta_filename then
    .ok (.completed [.renderMeta (pySliceToMinus3 meta_filename)])
  else
    .error .fileNotFound

/-- `render_all_posts` of daisy.py, over the already-discovered lists of
blog posts and meta posts (the results of the two `get_posts` calls) and
the current index document text.  Returns the effect trace and the index
document contents after the call.  When there are blog posts the index
is regenerated (which can raise, aborting the run before meta
rendering); when there are none, the index is not touched, the
"No blog posts found" message is printed, and meta posts are still
rendered. -/
def render_all_posts (htmlExt : String) (blogPosts metaPosts : List Post)
    (indexDoc : String) : Except Err (List Effect × String) :=
  if 0 < blogPosts.length then
    match generate_index_file htmlExt blogPosts with
    | .error e => .error e
    | .ok (_, newIndex) =>
      .ok (blogPosts.map (fun p => .renderBlog p.filename) ++
             metaPosts.map (fun p => .renderMeta p.filename),
           newIndex)
  else
    .ok (.printNoPosts :: metaPosts.map (fun p => .renderMeta p.filename),
         indexDoc)

/-- Non-increasing-date relation: the order in which entries appear in a
regenerated index (earlier entry date not below later entry date). -/
def dateDescRel (p q : Post) : Prop :=
  pyStrLt (dKey p) (dKey q) = false

/-- Strictly-greater-date relation on posts. -/
def dateStrictGt (p q : Post) : Prop :=
  pyStrLt (dKey q) (dKey p) = true

theorem pyLt_asymm : ∀ s t, pyLt s t = true → pyLt t s = false := by
  intro s
  induction s with
  | nil =>
    intro t h
    cases t with
    | nil => simp [pyLt] at h
    | cons b bs => simp [pyLt]
  | cons a as ih =>
    intro t h
    cases t with
    | nil => simp [pyLt] at h
    | cons b bs =>
      by_cases hab : a = b
      · subst hab
        simp only [pyLt, if_pos rfl] at h ⊢
        exact ih bs h
      · have hba : ¬ b = a := fun e => hab e.symm
        simp only [pyLt, if_neg hab, if_neg hba, decide_eq_true_eq,
          decide_eq_false_iff_not] at h ⊢
        exact lt_asymm h

theorem pyLt_conn : ∀ s t, pyLt s t = false → pyLt t s = false → s = t := by
  intro s
  induction s with
  | nil =>
    intro t h1 _
    cases t with
    | nil => rfl
    | cons b bs => simp [pyLt] at h1
  | cons a as ih =>
    intro t h1 h2
    cases t with
    | nil => simp [pyLt] at h2
    | cons b bs =>
      by_cases hab : a = b
      · subst hab
        simp only [pyLt, if_pos rfl] at h1 h2
        rw [ih bs h1 h2]
      · have hba : ¬ b = a := fun e => hab e.symm
        simp only [pyLt, if_neg hab, if_neg hba,
          decide_eq_false_iff_not] at h1 h2
        exact absurd (le_antisymm (le_of_not_lt h2) (le_of_not_lt h1)) hab

theorem pyLt_trans : ∀ s t u, pyLt s t = true → pyLt t u = true →
    pyLt s u = true := by
  intro s
  induction s with
  | nil =>
    intro t u h1 h2
    cases t with
    | nil => simp [pyLt] at h1
    | cons b bs =>
      cases u with
      | nil => simp [pyLt] at h2
      | cons c cs => simp [pyLt]
  | cons a as ih =>
    intro t u h1 h2
    cases t with
    | nil => simp [pyLt] at h1
    | cons b bs =>
      cases u with
      | nil => simp [pyLt] at h2
      | cons c cs =>
        by_cases hab : a = b
        · subst hab
          by_cases hac : a = c
          · subst hac
            simp only [pyLt, if_pos rfl] at h1 h2 ⊢
            exact ih bs cs h1 h2
          · simp only [pyLt, if_neg hac, decide_eq_true_eq] at h2 ⊢
            exact h2
        · by_cases hbc : b = c
          · subst hbc
            simp only [pyLt, if_neg hab, decide_eq_true_eq] at h1 ⊢
            exact h1
          · simp only [pyLt, if_neg hab, if_neg hbc,
              decide_eq_true_eq] at h1 h2
            have hac : a < c := lt_trans h1 h2
            simp only [pyLt, if_neg (ne_of_lt hac), decide_eq_true_eq]
            exact hac

theorem pyStrLt_asymm (s t : String) (h : pyStrLt s t = true) :
    pyStrLt t s = false :=
  pyLt_asymm s.data t.data h

theorem pyStrLt_conn (s t : String) (h1 : pyStrLt s t = false)
    (h2 : pyStrLt t s = false) : s = t :=
  String.ext (pyLt_conn s.data t.data h1 h2)

theorem pyStrLt_trans (s t u : String) (h1 : pyStrLt s t = true)
    (h2 : pyStrLt t u = true) : pyStrLt s u = true :=
  pyLt_trans s.data t.data u.data h1 h2

instance : IsAntisymm Post dateStrictGt :=
  ⟨fun a b h1 h2 => by
    have := pyStrLt_asymm _ _ h1
    rw [dateStrictGt] at h2
    rw [this] at h2
    exact absurd h2 (by simp)⟩

theorem startsWithL_append (n t : List Char) :
    startsWithL n (n ++ t) = true := by
  induction n with
  | nil => rfl
  | cons a as ih => simp [startsWithL, ih]

theorem occursInL_of_starts (n h : List Char)
    (hs : startsWithL n h = true) : occursInL n h = true := by
  cases h with
  | nil => simpa [occursInL] using hs
  | cons c cs => simp [occursInL, hs]

theorem occursInL_append_left (pre n h : List Char)
    (hh : occursInL n h = true) : occursInL n (pre ++ h) = true := by
  induction pre with
  | nil => simpa
  | cons c cs ih => simp [occursInL, ih]

theorem occursInL_mid (pre n post : List Char) :
    occursInL n (pre ++ (n ++ post)) = true :=
  occursInL_append_left pre n _
    (occursInL_of_starts n _ (startsWithL_append n post))

theorem insertD_perm (p : Post) (l : List Post) :
    (insertD p l).Perm (p :: l) := by
  induction l with
  | nil => exact List.Perm.refl _
  | cons q qs ih =>
    by_cases h : pyStrLt (dKey p) (dKey q) = true
    · simp only [insertD, if_pos h]
      exact (ih.cons q).trans (List.Perm.swap p q qs)
    · simp only [insertD, if_neg h]
      exact List.Perm.refl _

theorem sortByDateDesc_perm (l : List Post) :
    (sortByDateDesc l).Perm l := by
  induction l with
  | nil => exact List.Perm.refl _
  | cons p ps ih =>
    exact (insertD_perm p (sortByDateDesc ps)).trans (ih.cons p)

theorem insertD_pairwise (p : Post) (l : List Post)
    (h : List.Pairwise dateDescRel l) :
    List.Pairwise dateDescRel (insertD p l) := by
  induction l with
  | nil => simp [insertD]
  | cons q qs ih =>
    rcases List.pairwise_cons.mp h with ⟨hq, hqs⟩
    by_cases hlt : pyStrLt (dKey p) (dKey q) = true
    · simp only [insertD, if_pos hlt]
      refine List.pairwise_cons.mpr ⟨?_, ih hqs⟩
      intro x hx
      have hx' : x = p ∨ x ∈ qs := by
        have := (insertD_perm p qs).mem_iff.mp hx
        simpa using this
      cases hx' with
      | inl e => rw [e]; exact pyStrLt_asymm _ _ hlt
      | inr hmem => exact hq x hmem
    · have hlt' : pyStrLt (dKey p) (dKey q) = false := by
        simpa using hlt
      simp only [insertD, if_neg hlt]
      refine List.pairwise_cons.mpr ⟨?_, h⟩
      intro x hx
      rcases List.mem_cons.mp hx with e | hmem
      · rw [e]; exact hlt'
      · show pyStrLt (dKey p) (dKey x) = false
        cases hpx : pyStrLt (dKey p) (dKey x) with
        | false => rfl
        | true =>
          have hqx : pyStrLt (dKey q) (dKey x) = false := hq x hmem
          cases hqp : pyStrLt (dKey q) (dKey p) with
          | true =>
            have := pyStrLt_trans _ _ _ hqp hpx
            rw [this] at hqx
            exact absurd hqx (by simp)
          | false =>
            have heq : dKey p = dKey q := pyStrLt_conn _ _ hlt' hqp
            rw [heq] at hpx
            rw [hpx] at hqx
            exact absurd hqx (by simp)

theorem sortByDateDesc_pairwise (l : List Post) :
    List.Pairwise dateDescRel (sortByDateDesc l) := by
  induction l with
  | nil => simp [sortByDateDesc]
  | cons p ps ih => exact insertD_pairwise p _ ih

/-- With all dates present and pairwise distinct, the stable descending
sort is determined by the multiset of posts alone: any two permutations
of the same posts sort to the same list. -/
theorem sortByDateDesc_eq_of_perm (l1 l2 : List Post)
    (hperm : l1.Perm l2) (hsome : ∀ p ∈ l1, p.date ≠ none)
    (hdist : List.Pairwise (fun p q => p.date ≠ q.date) l1) :
    sortByDateDesc l1 = sortByDateDesc l2 := by
  have hperm12 : (sortByDateDesc l1).Perm (sortByDateDesc l2) :=
    ((sortByDateDesc_perm l1).trans hperm).trans (sortByDateDesc_perm l2).symm
  have hne_symm : ∀ {x y : Post}, x.date ≠ y.date → y.date ≠ x.date :=
    fun h e => h e.symm
  have strict_of : ∀ (l : List Post), (∀ p ∈ l, p.date ≠ none) →
      List.Pairwise (fun p q => p.date ≠ q.date) l →
      List.Pairwise dateStrictGt (sortByDateDesc l) := by
    intro l hs hd
    have hs' : ∀ p ∈ sortByDateDesc l, p.date ≠ none := fun p hp =>
      hs p ((sortByDateDesc_perm l).mem_iff.mp hp)
    have hd' : List.Pairwise (fun p q => p.date ≠ q.date)
        (sortByDateDesc l) :=
      (List.Perm.pairwise_iff hne_symm (sortByDateDesc_perm l)).mpr hd
    have hboth := (sortByDateDesc_pairwise l).and hd'
    refine hboth.imp_of_mem ?_
    intro a b ha hb hab
    rcases hab with ⟨hle, hne⟩
    show pyStrLt (dKey b) (dKey a) = true
    cases hba : pyStrLt (dKey b) (dKey a) with
    | true => rfl
    | false =>
      have heq : dKey a = dKey b := pyStrLt_conn _ _ hle hba
      rcases ha' : a.date with _ | x
      · exact absurd ha' (hs' a ha)
      · rcases hb' : b.date with _ | y
        · exact absurd hb' (hs' b hb)
        · have : x = y := by
            have e1 : dKey a = x := by simp [dKey, ha']
            have e2 : dKey b = y := by simp [dKey, hb']
            rw [e1, e2] at heq
            exact heq
          rw [ha', hb', this] at hne
          exact absurd rfl hne
  have h1 : List.Pairwise dateStrictGt (sortByDateDesc l1) :=
    strict_of l1 hsome hdist
  have h2 : List.Pairwise dateStrictGt (sortByDateDesc l2) := by
    refine strict_of l2 (fun p hp => hsome p (hperm.mem_iff.mpr hp)) ?_
    exact (List.Perm.pairwise_iff hne_symm hperm).mp hdist
  exact List.eq_of_perm_of_sorted hperm12 h1 h2

example : pySliceToMinus3 "post.md" = "post" := by decide
example : pyIn "ab" "xxabz" = true := by decide
example : pyIn "ab" "xxaz" = false := by decide
example : pyStrLt "2023-01-01" "2024-01-01" = true := by decide
example :
    sortByDateDesc [⟨"a", "c", "A", some "2023-01-01", none⟩,
                    ⟨"b", "c", "B", some "2024-01-01", none⟩] =
    [⟨"b", "c", "B", some "2024-01-01", none⟩,
     ⟨"a", "c", "A", some "2023-01-01", none⟩] := by decide
example :
    generate_index_file ".html" [⟨"u", "c", "U", none, none⟩,
                                 ⟨"d", "c", "D", some "2024-01-01", none⟩] =
    .error .typeError := by decide
example :
    add_to_index_file ".html" ⟨"u", "c", "U", none, none⟩ INDEX_HEADER =
    INDEX_HEADER ++ "[U](u.html) (None)\n\n" := by decide
example :
    render_single_post "blog" "index.md" ["blog/post.md"] ["blog/post.md"]
      "post.md" =
    .ok (.completed [.renderBlog "blog/post", .addToIndex "blog/post",
                     .renderMeta "index"]) := by decide

theorem sortWouldRaise_eq_false (posts : List Post)
    (hsome : ∀ p ∈ posts, p.date ≠ none) :
    sortWouldRaise posts = false := by
  have hany : posts.any (fun p => p.date.isNone) = false := by
    rw [List.any_eq_false]
    intro p hp
    simp only [Option.isNone_iff_eq_none]
    exact hsome p hp
  simp [sortWouldRaise, hany]

/-- C1: an undated document loads with the "no date" marker and
`add_to_index_file` handles it (formatting the date as "None"), but
`generate_index_file` crashes: sorting a `None` date against a string
date raises `TypeError` in CPython, contradicting the design evident in the code itself,
of treating a missing date as a valid state. -/
theorem c1_undated_post_loads_but_crashes_regenerate :
    Post.init ("body", [("title", ["U"])]) "u.md" =
      .ok ⟨"u", "body", "U", none, none⟩ ∧
    add_to_index_file ".html" ⟨"u", "body", "U", none, none⟩ INDEX_HEADER =
      INDEX_HEADER ++ "[U](u.html) (None)\n\n" ∧
    generate_index_file ".html"
      [⟨"u", "body", "U", none, none⟩,
       ⟨"d", "body", "D", some "2024-01-01", none⟩] =
      .error .typeError := by
  refine ⟨by decide, by decide, by decide⟩

/-- C2: `add_to_index_file` is idempotent on the index document: after
one call the slug occurs in the document (it is part of the inserted
entry link), so a second call with the same post is a no-op. -/
theorem c2_insert_one_idempotent (htmlExt : String) (post : Post)
    (data : String) :
    add_to_index_file htmlExt post (add_to_index_file htmlExt post data) =
      add_to_index_file htmlExt post data := by
  cases h : pyIn post.filename data with
  | true => simp [add_to_index_file, h]
  | false =>
    have hin : pyIn post.filename
        (insert_string data (indexPostEntry htmlExt post)
          INDEX_HEADER.length) = true := by
      simp only [pyIn, insert_string, indexPostEntry, String.data_append,
        List.append_assoc]
      apply occursInL_append_left
      apply occursInL_append_left
      apply occursInL_append_left
      apply occursInL_append_left
      apply occursInL_of_starts
      exact startsWithL_append _ _
    simp [add_to_index_file, h, hin]

/-- C3 counterexample: two posts sharing a date.  Python list.sort is
stable, so the two input orders regenerate byte-different index files
even though both inputs are the same collection with resolved dates. -/
theorem c3_counterexample_equal_dates :
    ([⟨"a", "c", "A", some "2024-01-01", none⟩,
      ⟨"b", "c", "B", some "2024-01-01", none⟩] : List Post).Perm
      [⟨"b", "c", "B", some "2024-01-01", none⟩,
       ⟨"a", "c", "A", some "2024-01-01", none⟩] ∧
    (∀ p ∈ ([⟨"a", "c", "A", some "2024-01-01", none⟩,
             ⟨"b", "c", "B", some "2024-01-01", none⟩] : List Post),
       p.date ≠ none) ∧
    generate_index_file ".html"
        [⟨"a", "c", "A", some "2024-01-01", none⟩,
         ⟨"b", "c", "B", some "2024-01-01", none⟩] ≠
      generate_index_file ".html"
        [⟨"b", "c", "B", some "2024-01-01", none⟩,
         ⟨"a", "c", "A", some "2024-01-01", none⟩] := by
  refine ⟨by decide, by decide, by decide⟩

/-- C3 (amended): for posts with resolved and pairwise distinct dates,
`generate_index_file` is determined by the collection alone — any input
order produces the identical output, the fixed header followed by one
entry per post, each followed by a blank line, in non-increasing date
order, fully replacing the prior file contents. -/
theorem c3_regenerate_deterministic_distinct_dates (htmlExt : String)
    (l1 l2 : List Post) (hperm : l1.Perm l2)
    (hsome : ∀ p ∈ l1, p.date ≠ none)
    (hdist : List.Pairwise (fun p q => p.date ≠ q.date) l1) :
    generate_index_file htmlExt l1 = generate_index_file htmlExt l2 ∧
    generate_index_file htmlExt l1 =
      .ok (sortByDateDesc l1,
        INDEX_HEADER ++
          String.join ((sortByDateDesc l1).map (indexPostEntry htmlExt))) ∧
    (sortByDateDesc l1).Perm l1 ∧
    List.Pairwise dateDescRel (sortByDateDesc l1) := by
  have hraise1 : sortWouldRaise l1 = false := sortWouldRaise_eq_false l1 hsome
  have hraise2 : sortWouldRaise l2 = false :=
    sortWouldRaise_eq_false l2 (fun p hp => hsome p (hperm.mem_iff.mpr hp))
  have hsorteq := sortByDateDesc_eq_of_perm l1 l2 hperm hsome hdist
  refine ⟨?_, ?_, sortByDateDesc_perm l1, sortByDateDesc_pairwise l1⟩
  · simp [generate_index_file, hraise1, hraise2, hsorteq]
  · simp [generate_index_file, hraise1]

/-- C3 witness: the amended determinism theorem applied to two concrete
posts with distinct dates, in the two possible input orders. -/
theorem c3_witness :
    generate_index_file ".html"
        [⟨"a", "c", "A", some "2023-01-01", none⟩,
         ⟨"b", "c", "B", some "2024-01-01", none⟩] =
      generate_index_file ".html"
        [⟨"b", "c", "B", some "2024-01-01", none⟩,
         ⟨"a", "c", "A", some "2023-01-01", none⟩] ∧
    generate_index_file ".html"
        [⟨"a", "c", "A", some "2023-01-01", none⟩,
         ⟨"b", "c", "B", some "2024-01-01", none⟩] =
      .ok (sortByDateDesc [⟨"a", "c", "A", some "2023-01-01", none⟩,
                           ⟨"b", "c", "B", some "2024-01-01", none⟩],
        INDEX_HEADER ++
          String.join ((sortByDateDesc
            [⟨"a", "c", "A", some "2023-01-01", none⟩,
             ⟨"b", "c", "B", some "2024-01-01", none⟩]).map
              (indexPostEntry ".html"))) ∧
    (sortByDateDesc [⟨"a", "c", "A", some "2023-01-01", none⟩,
                     ⟨"b", "c", "B", some "2024-01-01", none⟩]).Perm
      [⟨"a", "c", "A", some "2023-01-01", none⟩,
       ⟨"b", "c", "B", some "2024-01-01", none⟩] ∧
    List.Pairwise dateDescRel
      (sortByDateDesc [⟨"a", "c", "A", some "2023-01-01", none⟩,
                       ⟨"b", "c", "B", some "2024-01-01", none⟩]) :=
  c3_regenerate_deterministic_distinct_dates ".html"
    [⟨"a", "c", "A", some "2023-01-01", none⟩,
     ⟨"b", "c", "B", some "2024-01-01", none⟩]
    [⟨"b", "c", "B", some "2024-01-01", none⟩,
     ⟨"a", "c", "A", some "2023-01-01", none⟩]
    (by decide) (by decide) (by decide)

/-- C4: when the slug does not occur in the document,
`add_to_index_file` produces exactly the old document with the new entry
spliced in at offset `len(INDEX_HEADER)`: every character before and
after that offset is preserved unchanged. -/
theorem c4_insert_one_splices_at_header_offset (htmlExt : String)
    (post : Post) (data : String) (h : pyIn post.filename data = false) :
    (add_to_index_file htmlExt post data).data =
      data.data.take INDEX_HEADER.length ++
        (indexPostEntry htmlExt post).data ++
        data.data.drop INDEX_HEADER.length := by
  simp [add_to_index_file, h, insert_string]

/-- C4 witness: splicing a concrete new post into a concrete index
document whose text does not contain the slug. -/
theorem c4_witness :
    (add_to_index_file ".html" ⟨"b", "c", "B", some "2024-06-01", none⟩
        "title: Index\n\n[A](a.html) (2024-01-01)\n\n").data =
      ("title: Index\n\n[A](a.html) (2024-01-01)\n\n" : String).data.take
          INDEX_HEADER.length ++
        (indexPostEntry ".html"
          ⟨"b", "c", "B", some "2024-06-01", none⟩).data ++
        ("title: Index\n\n[A](a.html) (2024-01-01)\n\n" : String).data.drop
          INDEX_HEADER.length :=
  c4_insert_one_splices_at_header_offset ".html"
    ⟨"b", "c", "B", some "2024-06-01", none⟩
    "title: Index\n\n[A](a.html) (2024-01-01)\n\n" (by decide)

/-- C5: when the converter metadata has no `title` key, loading fails
(`Meta["title"]` raises `KeyError`, the concrete form of
`MissingMetadataError`), whatever the body content and filename. -/
theorem c5_missing_title_always_fails (content filename : String)
    (meta : List (String × List String))
    (h : metaValues meta "title" = none) :
    Post.init (content, meta) filename = .error .keyError := by
  simp [Post.init, h]

/-- C5 witness: loading a concrete document whose metadata block has a
date but no title. -/
theorem c5_witness :
    Post.init ("body", [("date", ["2024-01-01"])]) "u.md" =
      .error .keyError :=
  c5_missing_title_always_fails "body" "u.md" [("date", ["2024-01-01"])]
    (by decide)

/-- C6: the ignore test in `render_single_post` is
`(meta_filename or blog_filename) in CONFIG["ignored_files"]`; for a
non-empty filename the `or` already evaluates to `meta_filename`, so a
name whose blog-location resolution matches an ignored-files entry is
not skipped: the build loads it, renders it, and updates the index,
contradicting the documented silent skip under either resolution. -/
theorem c6_ignore_check_misses_blog_resolution :
    ("blog" ++ "/" ++ "post.md") ∈ (["blog/post.md"] : List String) ∧
    render_single_post "blog" "index.md" ["blog/post.md"] ["blog/post.md"]
        "post.md" =
      .ok (.completed [.renderBlog "blog/post", .addToIndex "blog/post",
                       .renderMeta "index"]) := by
  refine ⟨by decide, by decide⟩

/-- C7 counterexample: with a configured source extension of length
other than three (here ".markdown"), the loader still drops exactly
three characters, so slug plus extension differs from the original
filename. -/
theorem c7_counterexample_long_extension :
    ("a.markdown" : String) = "a" ++ ".markdown" ∧
    pySliceToMinus3 "a.markdown" = "a.markd" ∧
    pySliceToMinus3 "a.markdown" ++ ".markdown" ≠ "a.markdown" := by
  refine ⟨by decide, by decide, by decide⟩

/-- C7 (amended): the loader strips exactly three characters (the
length of the default ".md" extension), so slug plus extension equals
the original filename exactly for configured source extensions of
length three. -/
theorem c7_slug_strips_three_chars (ext stem : String)
    (hlen : ext.length = 3) :
    pySliceToMinus3 (stem ++ ext) = stem ∧
    pySliceToMinus3 (stem ++ ext) ++ ext = stem ++ ext := by
  have h1 : pySliceToMinus3 (stem ++ ext) = stem := by
    apply String.ext
    have hl : ext.data.length = 3 := hlen
    simp only [pySliceToMinus3, String.data_append, List.length_append, hl,
      Nat.add_sub_cancel]
    exact List.take_left stem.data ext.data
  exact ⟨h1, by rw [h1]⟩

/-- C7 witness: the amended theorem at the default ".md" extension. -/
theorem c7_witness :
    pySliceToMinus3 ("post" ++ ".md") = "post" ∧
    pySliceToMinus3 ("post" ++ ".md") ++ ".md" = "post" ++ ".md" :=
  c7_slug_strips_three_chars ".md" "post" (by decide)

/-- C8 counterexample: with zero qualifying blog documents,
`render_all_posts` leaves the index untouched and emits the no-content
signal, but it still renders the top-level meta documents — so the run
does perform rendering. -/
theorem c8_counterexample_meta_still_rendered :
    render_all_posts ".html" [] [⟨"about", "c", "About", none, none⟩]
        "olddoc" =
      .ok ([.printNoPosts, .renderMeta "about"], "olddoc") ∧
    Effect.renderMeta "about" ∈
      [Effect.printNoPosts, Effect.renderMeta "about"] := by
  refine ⟨by decide, by decide⟩

/-- C8 (amended): with zero qualifying blog documents the build emits
the "no content" signal, performs no blog rendering and no index write
(the index document is returned unchanged), but still renders every
top-level meta document. -/
theorem c8_no_blog_posts_keeps_index_renders_meta (htmlExt : String)
    (metaPosts : List Post) (indexDoc : String) :
    render_all_posts htmlExt [] metaPosts indexDoc =
      .ok (.printNoPosts ::
             metaPosts.map (fun p => Effect.renderMeta p.filename),
           indexDoc) := by
  simp [render_all_posts]

/-- C9 counterexample: a name that exists nowhere but matches the
ignore check makes `render_single_post` exit silently instead of
failing with `PostNotFoundError`. -/
theorem c9_counterexample_ignored_missing_name :
    render_single_post "blog" "index.md" ["gone.md"] [] "gone.md" =
      .ok .exited ∧
    (Except.ok BuildOutcome.exited : Except Err BuildOutcome) ≠
      .error .fileNotFound := by
  refine ⟨by decide, by decide⟩

/-- C9 (amended): for every name that does not match the ignore
check and resolves to no existing document under either the
blog-location resolution or the top-level resolution,
`render_single_post` fails with `FileNotFoundError` (the concrete form
of `PostNotFoundError`); no rendering or index effect occurs on that
path. -/
theorem c9_missing_post_errors (blogDir indexFile filename : String)
    (ignored existing : List String)
    (hig : ignored.contains
      (pyOrStr filename (blogDir ++ "/" ++ filename)) = false)
    (hblog : existing.contains (blogDir ++ "/" ++ filename) = false)
    (hmeta : existing.contains filename = false) :
    render_single_post blogDir indexFile ignored existing filename =
      .error .fileNotFound := by
  have hig' : pyOrStr filename (blogDir ++ "/" ++ filename) ∉ ignored := by
    simpa using hig
  have hblog' : blogDir ++ "/" ++ filename ∉ existing := by simpa using hblog
  have hmeta' : filename ∉ existing := by simpa using hmeta
  simp [render_single_post, hig', hblog', hmeta']

/-- C9 witness: a concrete missing, unignored name. -/
theorem c9_witness :
    render_single_post "blog" "index.md" [] [] "missing.md" =
      .error .fileNotFound :=
  c9_missing_post_errors "blog" "index.md" "missing.md" [] []
    (by decide) (by decide) (by decide)

/-- C10: `generate_index_file` sorts its argument in place — the
collection held by the caller afterwards is the date-descending stable sort of
the input (a permutation of it, pairwise non-increasing in date), and
on a concrete two-post input the post-call order differs from the input
order. -/
theorem c10_regenerate_sorts_in_place :
    (∀ (htmlExt : String) (posts : List Post),
      (∀ p ∈ posts, p.date ≠ none) →
      generate_index_file htmlExt posts =
        .ok (sortByDateDesc posts,
          INDEX_HEADER ++
            String.join ((sortByDateDesc posts).map
              (indexPostEntry htmlExt))) ∧
      (sortByDateDesc posts).Perm posts ∧
      List.Pairwise dateDescRel (sortByDateDesc posts)) ∧
    sortByDateDesc [⟨"a", "c", "A", some "2023-01-01", none⟩,
                    ⟨"b", "c", "B", some "2024-01-01", none⟩] =
      [⟨"b", "c", "B", some "2024-01-01", none⟩,
       ⟨"a", "c", "A", some "2023-01-01", none⟩] ∧
    ([⟨"b", "c", "B", some "2024-01-01", none⟩,
      ⟨"a", "c", "A", some "2023-01-01", none⟩] : List Post) ≠
      [⟨"a", "c", "A", some "2023-01-01", none⟩,
       ⟨"b", "c", "B", some "2024-01-01", none⟩] := by
  refine ⟨?_, by decide, by decide⟩
  intro htmlExt posts hsome
  have hraise : sortWouldRaise posts = false :=
    sortWouldRaise_eq_false posts hsome
  exact ⟨by simp [generate_index_file, hraise], sortByDateDesc_perm posts,
    sortByDateDesc_pairwise posts⟩

/-- C10 witness: the universal part applied to a concrete dated
collection. -/
theorem c10_witness :
    generate_index_file ".html"
        [⟨"a", "c", "A", some "2023-01-01", none⟩,
         ⟨"b", "c", "B", some "2024-01-01", none⟩] =
      .ok (sortByDateDesc [⟨"a", "c", "A", some "2023-01-01", none⟩,
                           ⟨"b", "c", "B", some "2024-01-01", none⟩],
        INDEX_HEADER ++
          String.join ((sortByDateDesc
            [⟨"a", "c", "A", some "2023-01-01", none⟩,
             ⟨"b", "c", "B", some "2024-01-01", none⟩]).map
              (indexPostEntry ".html"))) ∧
    (sortByDateDesc [⟨"a", "c", "A", some "2023-01-01", none⟩,
                     ⟨"b", "c", "B", some "2024-01-01", none⟩]).Perm
      [⟨"a", "c", "A", some "2023-01-01", none⟩,
       ⟨"b", "c", "B", some "2024-01-01", none⟩] ∧
    List.Pairwise dateDescRel
      (sortByDateDesc [⟨"a", "c", "A", some "2023-01-01", none⟩,
                       ⟨"b", "c", "B", some "2024-01-01", none⟩]) :=
  c10_regenerate_sorts_in_place.1 ".html"
    [⟨"a", "c", "A", some "2023-01-01", none⟩,
     ⟨"b", "c", "B", some "2024-01-01", none⟩] (by decide)
